import Mathlib

/-!
Verification of the mutual-fund advisor core: a shallow embedding of the
return calculator, fund search, result cache, and agent pipeline stages,
together with theorems settling the specification claims.
-/

set_option linter.unusedVariables false

namespace FundAdvisor

/-! ### Python string primitives

`containsSub t s` is the Python string test `t in s`, viewed as character
lists: `t` occurs as a contiguous substring of `s` (the empty string is a
substring of everything).  `lowerChars` is `str.lower` and `splitWs` is
`str.split()` (split on whitespace runs, discarding empty pieces). -/

def isSubAt : List Char → List Char → Bool
  | [], _ => true
  | _ :: _, [] => false
  | a :: t, b :: s => a == b && isSubAt t s

def containsSub (t s : List Char) : Bool :=
  match s with
  | [] => t == []
  | _ :: rest => isSubAt t s || containsSub t rest

def lowerChars (s : String) : List Char := s.toList.map Char.toLower

def splitWs : List Char → List (List Char)
  | [] => [[]]
  | c :: rest =>
    if c.isWhitespace then [] :: splitWs rest
    else
      match splitWs rest with
      | [] => [[c]]
      | w :: ws => (c :: w) :: ws

/-- Python `query.lower().split()`: lowercase, split on whitespace runs,
dropping empty pieces. -/
def pySplitQ (q : String) : List (List Char) :=
  (splitWs (lowerChars q)).filter (· ≠ [])

/-! ### Dates

`datetime.strptime(_, "%d-%m-%Y")` yields a calendar date; subtraction of
two such dates is a whole number of days.  We embed a parsed date as its
day number on the proleptic Gregorian timeline (days-from-civil
algorithm); an unparseable date string is `none`. -/

def daysFromCivil (y m d : Nat) : Int :=
  let y' : Nat := if m ≤ 2 then y - 1 else y
  let era : Nat := y' / 400
  let yoe : Nat := y' % 400
  let mp : Nat := (m + 9) % 12
  let doy : Nat := (153 * mp + 2) / 5 + d - 1
  let doe : Nat := yoe * 365 + yoe / 4 - yoe / 100 + doy
  (era * 146097 + doe : Int) - 719468

/-- One point of the NAV history handed to `_calculate_returns`:
`date` is the result of parsing the `"date"` field with
`strptime "%d-%m-%Y"` (`none` when parsing raises `ValueError`),
`nav` is `float(entry["nav"])`. -/
structure NavEntry where
  date : Option Int
  nav : Rat
deriving DecidableEq, Repr

/-! ### Return calculator (`MutualFundService._calculate_returns`) -/

/-- Python `round(x, 2)`: scale by 100, round half to even, scale back.
The fractional-part comparisons `y - ⌊y⌋ ≶ 1/2` are phrased as
`2*y ≶ 2*⌊y⌋ + 1` to keep the definition arithmetic-only. -/
def round2 (x : Rat) : Rat :=
  let y := x * 100
  let f : Int := ⌊y⌋
  let r : Int :=
    if 2 * y < 2 * (f : Rat) + 1 then f
    else if 2 * (f : Rat) + 1 < 2 * y then f + 1
    else if f % 2 = 0 then f else f + 1
  (r : Rat) / 100

/-- The `periods` dict of `_calculate_returns`, in insertion order. -/
def periods : List (String × Nat) :=
  [("1M", 30), ("3M", 91), ("6M", 182), ("1Y", 365), ("3Y", 1095), ("5Y", 1825)]

/-- The inner scan of `_calculate_returns`: walk the NAV entries keeping
the NAV of the entry whose date is strictly closer to `target` than any
seen so far, starting from `min_diff = timedelta(days=365)`.  Entries with
unparseable dates are skipped (`except: continue`). -/
def findClosest (target : Int) : List NavEntry → Option Rat → Nat → Option Rat × Nat
  | [], best, minDiff => (best, minDiff)
  | e :: rest, best, minDiff =>
    match e.date with
    | none => findClosest target rest best minDiff
    | some d =>
      let diff := (d - target).natAbs
      if diff < minDiff then findClosest target rest (some e.nav) diff
      else findClosest target rest best minDiff

/-- One period of the loop body of `_calculate_returns`: the value stored
under the period key, or `none` when the `if closest_nav and
closest_nav > 0` guard fails. -/
def calcVal (latestNav : Rat) (latestDate : Int) (navData : List NavEntry) (delta : Nat) :
    Option Rat :=
  match findClosest (latestDate - delta) navData none 365 with
  | (some nav, _) =>
    if 0 < nav then some (round2 ((latestNav - nav) / nav * 100)) else none
  | (none, _) => none

/-- `MutualFundService._calculate_returns`: the returned dict as an
association list in period order. -/
def calculateReturns (navData : List NavEntry) : List (String × Rat) :=
  if navData.length < 2 then []
  else
    match navData with
    | [] => []
    | e0 :: _ =>
      match e0.date with
      | none => []
      | some latestDate =>
        periods.filterMap fun p =>
          (calcVal e0.nav latestDate navData p.2).map fun r => (p.1, r)

/-! ### Characterization of the nearest-date scan -/

/-- The scan either leaves the running state untouched (no validly dated
entry lies strictly within the current bound) or returns the NAV of the
first entry attaining the least date difference, which is strictly below
the starting bound. -/
lemma findClosest_spec (t : Int) (l : List NavEntry) : ∀ (b : Option Rat) (m : Nat),
    (findClosest t l b m = (b, m) ∧
      ∀ f ∈ l, ∀ df, f.date = some df → m ≤ (df - t).natAbs) ∨
    (∃ l1 e l2 de, l = l1 ++ e :: l2 ∧ e.date = some de ∧ (de - t).natAbs < m ∧
      findClosest t l b m = (some e.nav, (de - t).natAbs) ∧
      (∀ f ∈ l1, ∀ df, f.date = some df → (de - t).natAbs < (df - t).natAbs) ∧
      (∀ f ∈ l, ∀ df, f.date = some df → (de - t).natAbs ≤ (df - t).natAbs)) := by
  induction l with
  | nil => intro b m; exact Or.inl ⟨rfl, by simp⟩
  | cons e rest ih =>
    intro b m
    cases hd : e.date with
    | none =>
      have hstep : findClosest t (e :: rest) b m = findClosest t rest b m := by
        simp [findClosest, hd]
      rcases ih b m with ⟨heq, hall⟩ | ⟨l1, w, l2, de, hsplit, hde, hlt, heq, hfirst, hmin⟩
      · refine Or.inl ⟨hstep.trans heq, ?_⟩
        intro f hf df hdf
        rcases List.mem_cons.mp hf with rfl | hf
        · rw [hd] at hdf; exact absurd hdf (by simp)
        · exact hall f hf df hdf
      · refine Or.inr ⟨e :: l1, w, l2, de, by simp [hsplit], hde, hlt, hstep.trans heq, ?_, ?_⟩
        · intro f hf df hdf
          rcases List.mem_cons.mp hf with rfl | hf
          · rw [hd] at hdf; exact absurd hdf (by simp)
          · exact hfirst f hf df hdf
        · intro f hf df hdf
          rcases List.mem_cons.mp hf with rfl | hf
          · rw [hd] at hdf; exact absurd hdf (by simp)
          · exact hmin f (hsplit ▸ hf) df hdf
    | some d0 =>
      by_cases hcmp : (d0 - t).natAbs < m
      · have hstep : findClosest t (e :: rest) b m =
            findClosest t rest (some e.nav) (d0 - t).natAbs := by
          simp [findClosest, hd, hcmp]
        rcases ih (some e.nav) (d0 - t).natAbs with
          ⟨heq, hall⟩ | ⟨l1, w, l2, de, hsplit, hde, hlt, heq, hfirst, hmin⟩
        · refine Or.inr ⟨[], e, rest, d0, rfl, hd, hcmp, hstep.trans heq, by simp, ?_⟩
          intro f hf df hdf
          rcases List.mem_cons.mp hf with rfl | hf
          · rw [hd] at hdf; injection hdf with h; omega
          · exact hall f hf df hdf
        · refine Or.inr ⟨e :: l1, w, l2, de, by simp [hsplit], hde,
            lt_trans hlt hcmp, hstep.trans heq, ?_, ?_⟩
          · intro f hf df hdf
            rcases List.mem_cons.mp hf with rfl | hf
            · rw [hd] at hdf; injection hdf with h; omega
            · exact hfirst f hf df hdf
          · intro f hf df hdf
            rcases List.mem_cons.mp hf with rfl | hf
            · rw [hd] at hdf; injection hdf with h; omega
            · exact hmin f (hsplit ▸ hf) df hdf
      · have hstep : findClosest t (e :: rest) b m = findClosest t rest b m := by
          simp [findClosest, hd, hcmp]
        rcases ih b m with ⟨heq, hall⟩ | ⟨l1, w, l2, de, hsplit, hde, hlt, heq, hfirst, hmin⟩
        · refine Or.inl ⟨hstep.trans heq, ?_⟩
          intro f hf df hdf
          rcases List.mem_cons.mp hf with rfl | hf
          · rw [hd] at hdf; injection hdf with h; omega
          · exact hall f hf df hdf
        · refine Or.inr ⟨e :: l1, w, l2, de, by simp [hsplit], hde, hlt, hstep.trans heq, ?_, ?_⟩
          · intro f hf df hdf
            rcases List.mem_cons.mp hf with rfl | hf
            · rw [hd] at hdf; injection hdf with h; omega
            · exact hfirst f hf df hdf
          · intro f hf df hdf
            rcases List.mem_cons.mp hf with rfl | hf
            · rw [hd] at hdf; injection hdf with h; omega
            · exact hmin f (hsplit ▸ hf) df hdf

/-- Skipping entries with unparseable dates does not change the scan. -/
lemma findClosest_filter (t : Int) (l : List NavEntry) : ∀ (b : Option Rat) (m : Nat),
    findClosest t (l.filter fun e => e.date.isSome) b m = findClosest t l b m := by
  induction l with
  | nil => intro b m; rfl
  | cons e rest ih =>
    intro b m
    cases hd : e.date with
    | none => simp [findClosest, hd, List.filter_cons, ih]
    | some d0 =>
      by_cases hcmp : (d0 - t).natAbs < m <;>
        simp [findClosest, hd, hcmp, List.filter_cons, ih]

/-- The per-window value depends only on the validly dated entries. -/
lemma calcVal_filter (n : Rat) (L : Int) (l : List NavEntry) (d : Nat) :
    calcVal n L (l.filter fun e => e.date.isSome) d = calcVal n L l d := by
  simp [calcVal, findClosest_filter]

/-! ### Looking up one period in the returns dict -/

lemma lookup_keyed_none {α β : Type} (g : String × α → Option β) (k : String) :
    ∀ ps : List (String × α), (∀ p ∈ ps, p.1 ≠ k) →
      (ps.filterMap fun p => (g p).map fun r => (p.1, r)).lookup k = none := by
  intro ps
  induction ps with
  | nil => intro _; rfl
  | cons p rest ih =>
    intro h
    cases hgp : g p with
    | none =>
      rw [List.filterMap_cons, hgp]
      exact ih fun q hq => h q (List.mem_cons_of_mem _ hq)
    | some v =>
      have hne : (k == p.1) = false := by
        have := h p (List.mem_cons_self _ _)
        simp [beq_iff_eq]; exact fun he => this he.symm
      rw [List.filterMap_cons, hgp]
      simp only [Option.map_some']
      rw [List.lookup, hne]
      exact ih fun q hq => h q (List.mem_cons_of_mem _ hq)

lemma lookup_keyed {α β : Type} (g : String × α → Option β) (k : String) (d : α) :
    ∀ ps : List (String × α), (ps.map Prod.fst).Nodup → (k, d) ∈ ps →
      (ps.filterMap fun p => (g p).map fun r => (p.1, r)).lookup k = g (k, d) := by
  intro ps
  induction ps with
  | nil => intro _ h; cases h
  | cons p rest ih =>
    intro hnd hmem
    rcases List.mem_cons.mp hmem with heq | hmem'
    · subst heq
      cases hgp : g (k, d) with
      | none =>
        rw [List.filterMap_cons, hgp]
        apply lookup_keyed_none
        intro q hq hqk
        have hout : k ∉ rest.map Prod.fst := by simpa using (List.nodup_cons.mp hnd).1
        exact hout (hqk ▸ List.mem_map_of_mem Prod.fst hq)
      | some v =>
        rw [List.filterMap_cons, hgp]
        simp only [Option.map_some']
        rw [List.lookup]
        simp [hgp]
    · have hp1 : (k == p.1) = false := by
        have h1 : p.1 ∉ rest.map Prod.fst := (List.nodup_cons.mp hnd).1
        have h2 : k ∈ rest.map Prod.fst := by
          simpa using List.mem_map_of_mem Prod.fst hmem'
        simp [beq_iff_eq]
        intro he; exact h1 (he ▸ h2)
      cases hgp : g p with
      | none =>
        rw [List.filterMap_cons, hgp]
        exact ih (List.nodup_cons.mp hnd).2 hmem'
      | some v =>
        rw [List.filterMap_cons, hgp]
        simp only [Option.map_some']
        rw [List.lookup, hp1]
        exact ih (List.nodup_cons.mp hnd).2 hmem'

lemma calculateReturns_eq (e0 : NavEntry) (rest : List NavEntry) (L : Int)
    (hlen : 2 ≤ (e0 :: rest).length) (hL : e0.date = some L) :
    calculateReturns (e0 :: rest) =
      periods.filterMap fun p => (calcVal e0.nav L (e0 :: rest) p.2).map fun r => (p.1, r) := by
  have h2 : ¬ ((e0 :: rest).length < 2) := by omega
  simp [calculateReturns, h2, hL]
  intro h
  exact absurd h (by simpa using h2)

lemma calculateReturns_lookup (e0 : NavEntry) (rest : List NavEntry) (L : Int)
    (k : String) (d : Nat)
    (hlen : 2 ≤ (e0 :: rest).length) (hL : e0.date = some L) (hkd : (k, d) ∈ periods) :
    (calculateReturns (e0 :: rest)).lookup k = calcVal e0.nav L (e0 :: rest) d := by
  rw [calculateReturns_eq e0 rest L hlen hL]
  exact lookup_keyed _ k d periods (by decide) hkd

/-! ### Concrete two-point history (spec §8 example) -/

/-- The NAV point `(21-04-2023, 845.123)`. -/
def e2023 : NavEntry := ⟨some (daysFromCivil 2023 4 21), 845123/1000⟩

/-- The NAV point `(21-04-2022, 800.0)`. -/
def e2022 : NavEntry := ⟨some (daysFromCivil 2022 4 21), 800⟩

/-- The 2-point NAV history `[(21-04-2023, 845.123), (21-04-2022, 800.0)]`,
most-recent first. -/
def c2History : List NavEntry := [e2023, e2022]

lemma c2History_eval : calculateReturns c2History =
    [("1M", 0), ("3M", 0), ("6M", 0), ("1Y", 141/25)] := by
  norm_num [calculateReturns, c2History, e2023, e2022, periods, calcVal, findClosest, round2,
    daysFromCivil, List.filterMap_cons]

/-- C2: `_calculate_returns` on the 2-point history
`[(21-04-2023, 845.123), (21-04-2022, 800.0)]` yields a `"1Y"` entry equal
to 5.64 within ±0.01 and contains no `"3Y"` and no `"5Y"` entry. -/
theorem claim_C2_two_point_returns :
    (∃ r, (calculateReturns c2History).lookup "1Y" = some r ∧ |r - 5.64| ≤ 0.01) ∧
    (calculateReturns c2History).lookup "3Y" = none ∧
    (calculateReturns c2History).lookup "5Y" = none := by
  refine ⟨⟨141/25, ?_, by norm_num⟩, ?_, ?_⟩ <;> rw [c2History_eval] <;> rfl

/-- C3 (counterexample): on the two-point history all dates parse and all
values are positive, yet the `"3Y"` window is omitted — because every
point lies 365 days or more from the 3Y target date, and the starting
bound of the scan `min_diff = timedelta(days=365)` excludes such points. -/
theorem claim_C3_counterexample :
    c2History.all (fun e => e.date.isSome) = true ∧
    (∃ e ∈ c2History, 0 < e.nav) ∧
    (calculateReturns c2History).lookup "3Y" = none := by
  refine ⟨by decide, ⟨e2022, by simp [c2History], by norm_num [e2022]⟩, ?_⟩
  rw [c2History_eval]; rfl

/-- C3 (amended): for each window, the scan selects the nearest validly
dated point **among points strictly within 365 days of the target date**
(the starting bound of the scan), the first point attaining that minimum
winning ties; when no validly dated point lies within 365 days of the
target, the window is omitted even if valid positive-valued points
exist. -/
theorem claim_C3_amended_nearest_within_cap
    (e0 : NavEntry) (rest : List NavEntry) (L : Int) (k : String) (d : Nat)
    (hlen : 2 ≤ (e0 :: rest).length) (hL : e0.date = some L) (hkd : (k, d) ∈ periods) :
    ((∀ f ∈ e0 :: rest, ∀ df, f.date = some df → 365 ≤ (df - (L - d)).natAbs) →
        (calculateReturns (e0 :: rest)).lookup k = none) ∧
    (∀ r, (calculateReturns (e0 :: rest)).lookup k = some r →
        ∃ l1 e l2 de, e0 :: rest = l1 ++ e :: l2 ∧ e.date = some de ∧
          (de - (L - d)).natAbs < 365 ∧ 0 < e.nav ∧
          r = round2 ((e0.nav - e.nav) / e.nav * 100) ∧
          (∀ f ∈ l1, ∀ df, f.date = some df →
            (de - (L - d)).natAbs < (df - (L - d)).natAbs) ∧
          (∀ f ∈ e0 :: rest, ∀ df, f.date = some df →
            (de - (L - d)).natAbs ≤ (df - (L - d)).natAbs)) := by
  have hlk := calculateReturns_lookup e0 rest L k d hlen hL hkd
  constructor
  · intro hfar
    rw [hlk]
    rcases findClosest_spec (L - d) (e0 :: rest) none 365 with ⟨heq, _⟩ |
      ⟨l1, e, l2, de, hsplit, hde, hltcap, heq, _, _⟩
    · simp [calcVal, heq]
    · have hmem : e ∈ e0 :: rest := by
        rw [hsplit]; exact List.mem_append_right _ (List.mem_cons_self _ _)
      have := hfar e hmem de hde
      omega
  · intro r hr
    rw [hlk] at hr
    rcases findClosest_spec (L - d) (e0 :: rest) none 365 with ⟨heq, _⟩ |
      ⟨l1, e, l2, de, hsplit, hde, hltcap, heq, hfirst, hmin⟩
    · simp [calcVal, heq] at hr
    · simp only [calcVal, heq] at hr
      by_cases hpos : 0 < e.nav
      · rw [if_pos hpos] at hr
        exact ⟨l1, e, l2, de, hsplit, hde, hltcap, hpos,
          (Option.some.inj hr).symm, hfirst, hmin⟩
      · rw [if_neg hpos] at hr; cases hr

/-- C3 (witness): the amended theorem applied to the two-point history at
the 1Y window. -/
theorem claim_C3_amended_witness :
    2 ≤ (e2023 :: [e2022]).length ∧ e2023.date = some (daysFromCivil 2023 4 21) ∧
    ("1Y", 365) ∈ periods ∧
    (((∀ f ∈ e2023 :: [e2022], ∀ df, f.date = some df →
          365 ≤ (df - (daysFromCivil 2023 4 21 - 365)).natAbs) →
        (calculateReturns (e2023 :: [e2022])).lookup "1Y" = none) ∧
      (∀ r, (calculateReturns (e2023 :: [e2022])).lookup "1Y" = some r →
        ∃ l1 e l2 de, e2023 :: [e2022] = l1 ++ e :: l2 ∧ e.date = some de ∧
          (de - (daysFromCivil 2023 4 21 - 365)).natAbs < 365 ∧ 0 < e.nav ∧
          r = round2 ((e2023.nav - e.nav) / e.nav * 100) ∧
          (∀ f ∈ l1, ∀ df, f.date = some df →
            (de - (daysFromCivil 2023 4 21 - 365)).natAbs <
              (df - (daysFromCivil 2023 4 21 - 365)).natAbs) ∧
          (∀ f ∈ e2023 :: [e2022], ∀ df, f.date = some df →
            (de - (daysFromCivil 2023 4 21 - 365)).natAbs ≤
              (df - (daysFromCivil 2023 4 21 - 365)).natAbs))) :=
  ⟨by decide, rfl, by decide,
    claim_C3_amended_nearest_within_cap e2023 [e2022] (daysFromCivil 2023 4 21) "1Y" 365
      (by decide) rfl (by decide)⟩

/-! ### C4: malformed dates -/

/-- A NAV point whose date string fails to parse. -/
def badEntry : NavEntry := ⟨none, 800⟩

/-- A 2-entry history whose second entry has a malformed date: only one
validly dated point. -/
def c4History : List NavEntry := [e2023, badEntry]

lemma c4History_eval : calculateReturns c4History = [("1M", 0), ("3M", 0), ("6M", 0)] := by
  norm_num [calculateReturns, c4History, e2023, badEntry, periods, calcVal, findClosest, round2,
    daysFromCivil, List.filterMap_cons]

/-- C4 (counterexample): `c4History` has only one validly dated point
(fewer than 2), yet `_calculate_returns` does not return the empty
metrics set — the 2-point minimum counts all entries, malformed dates
included, and the short windows are computed from the first entry
alone. -/
theorem claim_C4_counterexample :
    (c4History.countP fun e => e.date.isSome) = 1 ∧
    calculateReturns c4History ≠ [] ∧
    (calculateReturns c4History).lookup "1M" = some 0 := by
  refine ⟨by decide, ?_, ?_⟩ <;> rw [c4History_eval] <;> simp

/-- C4 (amended): entries with malformed dates other than the first are
skipped per window without aborting the computation, so the per-window
scans depend only on the validly dated entries; but the 2-entry minimum
counts all entries (valid or not), and a malformed date on the *first*
entry aborts the whole computation with the empty metrics set. -/
theorem claim_C4_amended_valid_entries (navData : List NavEntry) :
    (navData.length < 2 → calculateReturns navData = []) ∧
    (∀ e0 rest, navData = e0 :: rest → e0.date = none → calculateReturns navData = []) ∧
    (∀ e0 rest L, navData = e0 :: rest → e0.date = some L → 2 ≤ navData.length →
      calculateReturns navData =
        periods.filterMap fun p =>
          (calcVal e0.nav L (navData.filter fun e => e.date.isSome) p.2).map
            fun r => (p.1, r)) := by
  refine ⟨?_, ?_, ?_⟩
  · intro h; simp [calculateReturns, h]
  · rintro e0 rest rfl hnone
    simp [calculateReturns, hnone]
  · rintro e0 rest L rfl hL hlen
    rw [calculateReturns_eq e0 rest L hlen hL]
    congr 1
    funext p
    rw [calcVal_filter]

/-- C4 (witness): the amended theorem applied to `c4History`. -/
theorem claim_C4_amended_witness :
    c4History = e2023 :: [badEntry] ∧ e2023.date = some (daysFromCivil 2023 4 21) ∧
    2 ≤ c4History.length ∧
    calculateReturns c4History =
      periods.filterMap fun p =>
        (calcVal e2023.nav (daysFromCivil 2023 4 21)
            (c4History.filter fun e => e.date.isSome) p.2).map
          fun r => (p.1, r) :=
  ⟨rfl, rfl, by decide,
    (claim_C4_amended_valid_entries c4History).2.2 e2023 [badEntry]
      (daysFromCivil 2023 4 21) rfl rfl (by decide)⟩

/-! ### Fund search (`MutualFundService.search_funds`) -/

/-- One record of the "all funds" listing: `{schemeCode, schemeName}`. -/
structure FundRecord where
  schemeCode : Nat
  schemeName : String
deriving DecidableEq, Repr

/-- The `FundSummary` schema as built by `search_funds`. -/
structure FundSummary where
  scheme_code : Nat
  scheme_name : String
  fund_house : String
  category : String
deriving DecidableEq, Repr

/-- The `common_fund_houses` list of `_extract_fund_house`. -/
def commonFundHouses : List String :=
  ["HDFC", "SBI", "ICICI", "Axis", "Kotak", "Aditya Birla",
   "Nippon", "DSP", "UTI", "IDFC", "Franklin", "Tata", "Mirae",
   "Invesco", "Canara", "L&T", "Motilal", "Parag Parikh", "Edelweiss"]

/-- `MutualFundService._extract_fund_house`: the first known fund-house
fragment occurring (case-sensitively) in the scheme name, else `""`. -/
def extractFundHouse (schemeName : String) : String :=
  match commonFundHouses.find? (fun h => containsSub h.toList schemeName.toList) with
  | some h => h
  | none => ""

/-- `MutualFundService._categorize_fund`: fixed keyword sets per category
over the lowercased scheme name, checked in order Equity, Debt, Hybrid,
Solution Oriented; first match wins, default `"Other"`. -/
def categorizeFund (schemeName : String) : String :=
  let s := lowerChars schemeName
  if ["equity", "large cap", "mid cap", "small cap", "flexi cap"].any
      (fun t => containsSub t.toList s) then "Equity"
  else if ["debt", "bond", "income", "liquid", "gilt"].any
      (fun t => containsSub t.toList s) then "Debt"
  else if ["hybrid", "balanced", "equity savings"].any
      (fun t => containsSub t.toList s) then "Hybrid"
  else if ["retirement", "children", "tax saver", "elss"].any
      (fun t => containsSub t.toList s) then "Solution Oriented"
  else "Other"

/-- The `FundSummary` appended by the search loop for a matching fund. -/
def mkSummary (f : FundRecord) : FundSummary :=
  ⟨f.schemeCode, f.schemeName, extractFundHouse f.schemeName, categorizeFund f.schemeName⟩

/-- The match test of the search loop: all query terms are substrings of
the lowercased scheme name. -/
def matchesQuery (terms : List (List Char)) (schemeName : String) : Bool :=
  terms.all fun t => containsSub t (lowerChars schemeName)

/-- The filtering loop of `search_funds`, with its post-append
`len(filtered_funds) >= limit` break. -/
def searchLoop (terms : List (List Char)) (limit : Nat) :
    List FundRecord → List FundSummary → List FundSummary
  | [], acc => acc
  | f :: rest, acc =>
    if matchesQuery terms f.schemeName then
      let acc' := acc ++ [mkSummary f]
      if limit ≤ acc'.length then acc' else searchLoop terms limit rest acc'
    else searchLoop terms limit rest acc

/-- `MutualFundService.search_funds` over a backing all-funds listing. -/
def searchFunds (allFunds : List FundRecord) (query : String) (limit : Nat) :
    List FundSummary :=
  searchLoop (pySplitQ query) limit allFunds []

/-- Non-matching funds are passed over without changing the loop state. -/
lemma searchLoop_skip (terms : List (List Char)) (limit : Nat) :
    ∀ (l1 rest : List FundRecord) (acc : List FundSummary),
      (∀ f ∈ l1, matchesQuery terms f.schemeName = false) →
      searchLoop terms limit (l1 ++ rest) acc = searchLoop terms limit rest acc := by
  intro l1
  induction l1 with
  | nil => intro rest acc _; rfl
  | cons f l1' ih =>
    intro rest acc h
    have hf : matchesQuery terms f.schemeName = false := h f (List.mem_cons_self _ _)
    simp only [List.cons_append, searchLoop, hf, Bool.false_eq_true, if_false]
    exact ih rest acc fun g hg => h g (List.mem_cons_of_mem _ hg)

/-- C1 (counterexample): searching `"hdfc top 100"` over a listing that
contains only `"HDFC Top 100 Fund-Growth Option"` returns that single
fund with `fund_house = "HDFC"` but `category = "Other"`, not
`"Equity"` — no Equity keyword occurs in the scheme name. -/
theorem claim_C1_counterexample :
    searchFunds [⟨119010, "HDFC Top 100 Fund-Growth Option"⟩] "hdfc top 100" 5 =
      [⟨119010, "HDFC Top 100 Fund-Growth Option", "HDFC", "Other"⟩] ∧
    (searchFunds [⟨119010, "HDFC Top 100 Fund-Growth Option"⟩] "hdfc top 100" 5).map
      FundSummary.category ≠ ["Equity"] := by
  exact ⟨by decide, by decide⟩

/-- C1 (amended): against a listing containing
`"HDFC Top 100 Fund-Growth Option"` and otherwise only funds that fail
the all-terms match for `"hdfc top 100"`, the search returns exactly one
summary, for that fund, with `fund_house = "HDFC"` and
`category = "Other"`. -/
theorem claim_C1_amended_search (l1 l2 : List FundRecord) (code : Nat)
    (h1 : ∀ f ∈ l1, matchesQuery (pySplitQ "hdfc top 100") f.schemeName = false)
    (h2 : ∀ f ∈ l2, matchesQuery (pySplitQ "hdfc top 100") f.schemeName = false) :
    searchFunds (l1 ++ (⟨code, "HDFC Top 100 Fund-Growth Option"⟩ : FundRecord) :: l2)
        "hdfc top 100" 5 =
      [⟨code, "HDFC Top 100 Fund-Growth Option", "HDFC", "Other"⟩] := by
  unfold searchFunds
  rw [searchLoop_skip _ _ l1 _ [] h1]
  have hm : matchesQuery (pySplitQ "hdfc top 100") "HDFC Top 100 Fund-Growth Option" = true := by
    decide
  have hh : extractFundHouse "HDFC Top 100 Fund-Growth Option" = "HDFC" := by decide
  have hc : categorizeFund "HDFC Top 100 Fund-Growth Option" = "Other" := by decide
  simp only [searchLoop, hm, if_true, mkSummary, List.nil_append, List.length_cons,
    List.length_nil]
  rw [if_neg (by omega)]
  rw [show l2 = l2 ++ [] by simp, searchLoop_skip _ _ l2 [] _ h2]
  simp [searchLoop, hh, hc]

/-- C1 (witness): the amended search theorem at a concrete 3-fund
listing. -/
theorem claim_C1_amended_witness :
    (∀ f ∈ [(⟨100001, "SBI Bluechip Fund-Growth"⟩ : FundRecord)],
      matchesQuery (pySplitQ "hdfc top 100") f.schemeName = false) ∧
    (∀ f ∈ [(⟨100002, "ICICI Prudential Liquid Fund"⟩ : FundRecord)],
      matchesQuery (pySplitQ "hdfc top 100") f.schemeName = false) ∧
    searchFunds ([⟨100001, "SBI Bluechip Fund-Growth"⟩] ++
        (⟨119010, "HDFC Top 100 Fund-Growth Option"⟩ : FundRecord) ::
        [⟨100002, "ICICI Prudential Liquid Fund"⟩]) "hdfc top 100" 5 =
      [⟨119010, "HDFC Top 100 Fund-Growth Option", "HDFC", "Other"⟩] :=
  ⟨by decide, by decide,
    claim_C1_amended_search [⟨100001, "SBI Bluechip Fund-Growth"⟩]
      [⟨100002, "ICICI Prudential Liquid Fund"⟩] 119010 (by decide) (by decide)⟩

/-! ### C10: whitespace-only queries match everything -/

lemma toLower_whitespace (c : Char) (h : c.isWhitespace = true) :
    c.toLower.isWhitespace = true := by
  simp only [Char.isWhitespace] at h
  rcases Bool.or_eq_true_iff.mp h with h | h
  · rcases Bool.or_eq_true_iff.mp h with h | h
    · rcases Bool.or_eq_true_iff.mp h with h | h <;>
        · have hc := of_decide_eq_true h; subst hc; decide
    · have hc := of_decide_eq_true h; subst hc; decide
  · have hc := of_decide_eq_true h; subst hc; decide

lemma splitWs_all_whitespace :
    ∀ l : List Char, (∀ c ∈ l, c.isWhitespace = true) →
      (splitWs l).filter (· ≠ []) = [] := by
  intro l
  induction l with
  | nil => intro _; rfl
  | cons c rest ih =>
    intro h
    rw [splitWs, if_pos (h c (List.mem_cons_self _ _))]
    have hrest := ih fun d hd => h d (List.mem_cons_of_mem _ hd)
    simpa using hrest

/-- A whitespace-only query splits into no terms at all. -/
lemma pySplitQ_whitespace (q : String) (hq : ∀ c ∈ q.toList, c.isWhitespace = true) :
    pySplitQ q = [] := by
  apply splitWs_all_whitespace
  intro c hc
  rcases List.mem_map.mp hc with ⟨d, hd, rfl⟩
  exact toLower_whitespace d (hq d hd)

/-- With no query terms every fund matches, and the loop collects funds
in listing order until the post-append limit check stops it. -/
lemma searchLoop_no_terms (limit : Nat) :
    ∀ (funds : List FundRecord) (acc : List FundSummary),
      acc.length < limit →
      searchLoop [] limit funds acc =
        acc ++ (funds.take (limit - acc.length)).map mkSummary := by
  intro funds
  induction funds with
  | nil => intro acc h; simp [searchLoop]
  | cons f rest ih =>
    intro acc h
    have hm : matchesQuery [] f.schemeName = true := rfl
    simp only [searchLoop, hm, if_true]
    by_cases hstop : limit ≤ (acc ++ [mkSummary f]).length
    · rw [if_pos hstop]
      have hone : limit - acc.length = 1 := by
        simp only [List.length_append, List.length_cons, List.length_nil] at hstop
        omega
      rw [hone, List.take_succ_cons, List.take_zero]
      simp
    · rw [if_neg hstop]
      have h' : (acc ++ [mkSummary f]).length < limit := by omega
      rw [ih _ h']
      obtain ⟨k, hk⟩ : ∃ k, limit - acc.length = k + 1 :=
        ⟨limit - acc.length - 1, by omega⟩
      have hk' : limit - (acc ++ [mkSummary f]).length = k := by
        simp only [List.length_append, List.length_cons, List.length_nil]
        omega
      rw [hk, hk', List.take_succ_cons]
      simp

/-- C10: a query that is empty or whitespace-only yields an empty term
list, so the all-terms test is vacuously true for every fund and the
search returns summaries for the first `min(limit, N)` funds of the
listing (for any positive limit). -/
theorem claim_C10_whitespace_query (allFunds : List FundRecord) (q : String) (limit : Nat)
    (hq : ∀ c ∈ q.toList, c.isWhitespace = true) (hlim : 1 ≤ limit) :
    searchFunds allFunds q limit = (allFunds.take limit).map mkSummary ∧
    (searchFunds allFunds q limit).length = min limit allFunds.length := by
  have hsf : searchFunds allFunds q limit = (allFunds.take limit).map mkSummary := by
    unfold searchFunds
    rw [pySplitQ_whitespace q hq]
    have := searchLoop_no_terms limit allFunds [] (by simpa using hlim)
    simpa using this
  refine ⟨hsf, ?_⟩
  rw [hsf]
  simp [List.length_take]

/-- C10 (witness): the whitespace-query theorem on a concrete 3-fund
listing with limit 2. -/
theorem claim_C10_witness :
    (∀ c ∈ ("  " : String).toList, c.isWhitespace = true) ∧ 1 ≤ 2 ∧
    (searchFunds [⟨1, "SBI Bluechip Fund"⟩, ⟨2, "HDFC Top 100 Fund"⟩,
          ⟨3, "UTI Nifty Index Fund"⟩] "  " 2 =
        (([⟨1, "SBI Bluechip Fund"⟩, ⟨2, "HDFC Top 100 Fund"⟩,
          ⟨3, "UTI Nifty Index Fund"⟩] : List FundRecord).take 2).map mkSummary ∧
      (searchFunds [⟨1, "SBI Bluechip Fund"⟩, ⟨2, "HDFC Top 100 Fund"⟩,
          ⟨3, "UTI Nifty Index Fund"⟩] "  " 2).length =
        min 2 ([⟨1, "SBI Bluechip Fund"⟩, ⟨2, "HDFC Top 100 Fund"⟩,
          ⟨3, "UTI Nifty Index Fund"⟩] : List FundRecord).length) :=
  ⟨by decide, by omega,
    claim_C10_whitespace_query [⟨1, "SBI Bluechip Fund"⟩, ⟨2, "HDFC Top 100 Fund"⟩,
      ⟨3, "UTI Nifty Index Fund"⟩] "  " 2 (by decide) (by omega)⟩

/-! ### Result cache (`async_cache`)

The `cache` dict of the wrapper is embedded as an association list in
insertion order: entries `(key, value, expiry)`.  A dict assignment to an
existing key keeps its position (`upsert`); `min(cache.items(),
key=expiry)` picks the first entry attaining the least expiry; `del`
removes it (`evict`).  One call of the wrapped function is one
`wrapperStep`: the `outcome` argument stands for what `await func(...)`
would do if control reaches it (`.error` = the coroutine raises), and the
returned `Bool` records whether it was actually awaited. -/

section Cache

variable {V : Type}

/-- The cache dict of the wrapper: `(key, value, expiry)` in insertion order. -/
abbrev Cache (V : Type) : Type := List (String × V × Rat)

/-- Lookup `cache[key]` as `(value, expiry)`. -/
def findEntry (key : String) : Cache V → Option (V × Rat)
  | [] => none
  | (k, v, e) :: rest => if k = key then some (v, e) else findEntry key rest

/-- Dict assignment `cache[key] = (v, exp)`: replace in place, else
append. -/
def upsert (key : String) (v : V) (exp : Rat) : Cache V → Cache V
  | [] => [(key, v, exp)]
  | (k, v', e') :: rest =>
    if k = key then (key, v, exp) :: rest else (k, v', e') :: upsert key v exp rest

/-- The least expiry among the entries, if any. -/
def minExp : Cache V → Option Rat
  | [] => none
  | e :: rest =>
    some (match minExp rest with
          | none => e.2.2
          | some m => min e.2.2 m)

/-- Remove the first entry whose expiry is `m`. -/
def removeFirstExp (m : Rat) : Cache V → Cache V
  | [] => []
  | e :: rest => if e.2.2 = m then rest else e :: removeFirstExp m rest

/-- `del cache[min(cache.items(), key=lambda x: x[1][1])[0]]`: remove the
first entry attaining the least expiry. -/
def evict (c : Cache V) : Cache V :=
  match minExp c with
  | none => []
  | some m => removeFirstExp m c

/-- One pass through the `wrapper` body (lines 40–58 of the source, with
caching enabled): returns the new cache, the result of the call (`.error` when
the wrapped coroutine raises, which leaves the cache untouched), and
whether the wrapped function was awaited. -/
def wrapperStep (maxItems : Nat) (ttl : Rat) (key : String) (now : Rat)
    (outcome : Except Unit V) (c : Cache V) : Cache V × Except Unit V × Bool :=
  let insertPath : Cache V × Except Unit V × Bool :=
    match outcome with
    | .error e => (c, .error e, true)
    | .ok v =>
      let c1 := if maxItems ≤ c.length then evict c else c
      (upsert key v (now + ttl) c1, .ok v, true)
  match findEntry key c with
  | some (v, exp) => if now < exp then (c, .ok v, false) else insertPath
  | none => insertPath

/-- One call through the wrapper, as recorded in a trace. -/
structure CacheOp (V : Type) where
  key : String
  now : Rat
  outcome : Except Unit V

/-- Run a sequence of calls against an initially empty cache. -/
def runCache (maxItems : Nat) (ttl : Rat) (ops : List (CacheOp V)) : Cache V :=
  ops.foldl (fun c op => (wrapperStep maxItems ttl op.key op.now op.outcome c).1) []

lemma length_upsert_le (key : String) (v : V) (exp : Rat) :
    ∀ c : Cache V, (upsert key v exp c).length ≤ c.length + 1 := by
  intro c
  induction c with
  | nil => simp [upsert]
  | cons e rest ih =>
    by_cases h : e.1 = key
    · obtain ⟨k, v', e'⟩ := e
      simp_all [upsert]
    · obtain ⟨k, v', e'⟩ := e
      simp only [upsert] at *
      rw [if_neg h]
      simpa using Nat.succ_le_succ ih

lemma minExp_isSome {c : Cache V} (h : c ≠ []) : (minExp c).isSome := by
  cases c with
  | nil => exact absurd rfl h
  | cons e rest => simp [minExp]

lemma minExp_le {c : Cache V} {m : Rat} (h : minExp c = some m) :
    ∀ f ∈ c, m ≤ f.2.2 := by
  induction c generalizing m with
  | nil => cases h
  | cons e rest ih =>
    intro f hf
    rw [minExp] at h
    rcases List.mem_cons.mp hf with rfl | hf
    · cases hrest : minExp rest with
      | none => rw [hrest] at h; exact le_of_eq (Option.some.inj h).symm
      | some m' =>
        rw [hrest] at h
        have := (Option.some.inj h).symm
        rw [this]; exact min_le_left _ _
    · cases hrest : minExp rest with
      | none =>
        cases rest with
        | nil => cases hf
        | cons g r => rw [minExp] at hrest; cases hrest
      | some m' =>
        rw [hrest] at h
        have hm : m = min e.2.2 m' := Option.some.inj h.symm
        exact hm ▸ le_trans (min_le_right _ _) (ih hrest f hf)

lemma minExp_attained {c : Cache V} {m : Rat} (h : minExp c = some m) :
    ∃ f ∈ c, f.2.2 = m := by
  induction c generalizing m with
  | nil => cases h
  | cons e rest ih =>
    rw [minExp] at h
    cases hrest : minExp rest with
    | none =>
      rw [hrest] at h
      exact ⟨e, List.mem_cons_self _ _, (Option.some.inj h)⟩
    | some m' =>
      rw [hrest] at h
      have hm : m = min e.2.2 m' := (Option.some.inj h).symm
      rcases le_total e.2.2 m' with hle | hle
      · exact ⟨e, List.mem_cons_self _ _, by rw [hm, min_eq_left hle]⟩
      · obtain ⟨f, hf, hfm⟩ := ih hrest
        exact ⟨f, List.mem_cons_of_mem _ hf, by rw [hm, min_eq_right hle, hfm]⟩

lemma removeFirstExp_decomp {m : Rat} :
    ∀ {c : Cache V}, (∃ f ∈ c, f.2.2 = m) →
      ∃ l1 g l2, c = l1 ++ g :: l2 ∧ g.2.2 = m ∧
        removeFirstExp m c = l1 ++ l2 := by
  intro c
  induction c with
  | nil => rintro ⟨f, hf, _⟩; cases hf
  | cons e rest ih =>
    intro hex
    by_cases he : e.2.2 = m
    · exact ⟨[], e, rest, rfl, he, by rw [removeFirstExp, if_pos he]; rfl⟩
    · have hex' : ∃ f ∈ rest, f.2.2 = m := by
        obtain ⟨f, hf, hfm⟩ := hex
        rcases List.mem_cons.mp hf with rfl | hf
        · exact absurd hfm he
        · exact ⟨f, hf, hfm⟩
      obtain ⟨l1, g, l2, hsplit, hgm, heq⟩ := ih hex'
      refine ⟨e :: l1, g, l2, by simp [hsplit], hgm, ?_⟩
      rw [removeFirstExp, if_neg he, heq]
      rfl

/-- Decomposition of an eviction: the evicted entry is a least-expiry
entry, and exactly that one entry is removed. -/
lemma evict_decomp {c : Cache V} (h : c ≠ []) :
    ∃ l1 g l2, c = l1 ++ g :: l2 ∧ (∀ f ∈ c, g.2.2 ≤ f.2.2) ∧ evict c = l1 ++ l2 := by
  obtain ⟨m, hm⟩ := Option.isSome_iff_exists.mp (minExp_isSome h)
  obtain ⟨l1, g, l2, hsplit, hgm, heq⟩ := removeFirstExp_decomp (minExp_attained hm)
  refine ⟨l1, g, l2, hsplit, ?_, ?_⟩
  · intro f hf; rw [hgm]; exact minExp_le hm f hf
  · unfold evict; rw [hm]; exact heq

lemma evict_length {c : Cache V} (h : c ≠ []) : (evict c).length + 1 = c.length := by
  obtain ⟨l1, g, l2, hsplit, _, heq⟩ := evict_decomp h
  rw [heq, hsplit]
  simp
  omega

/-- The insert branch is taken exactly when the key is absent or its
entry has expired. -/
def missOrExpired (key : String) (now : Rat) (c : Cache V) : Prop :=
  match findEntry key c with
  | none => True
  | some (_, exp) => exp ≤ now

/-- A single wrapper call never grows the cache beyond `maxItems`
(provided it was within the bound to start with and `maxItems ≥ 1`). -/
lemma wrapperStep_length_le (maxItems : Nat) (ttl : Rat) (key : String) (now : Rat)
    (outcome : Except Unit V) (c : Cache V) (hmax : 1 ≤ maxItems)
    (hc : c.length ≤ maxItems) :
    (wrapperStep maxItems ttl key now outcome c).1.length ≤ maxItems := by
  unfold wrapperStep
  cases hfind : findEntry key c with
  | some ve =>
    obtain ⟨v, exp⟩ := ve
    by_cases hlt : now < exp
    · simpa [hlt] using hc
    · cases outcome with
      | error e => simpa [hlt] using hc
      | ok v' =>
        simp only [hlt, if_false]
        by_cases hfull : maxItems ≤ c.length
        · have hne : c ≠ [] := by
            cases c with
            | nil => simp at hfull; omega
            | cons _ _ => simp
          simp only [hfull, if_true]
          have h1 := length_upsert_le key v' (now + ttl) (evict c)
          have h2 := evict_length hne
          omega
        · simp only [hfull, if_false]
          have h1 := length_upsert_le key v' (now + ttl) c
          omega
  | none =>
    cases outcome with
    | error e => simpa using hc
    | ok v' =>
      simp only
      by_cases hfull : maxItems ≤ c.length
      · have hne : c ≠ [] := by
          cases c with
          | nil => simp at hfull; omega
          | cons _ _ => simp
        simp only [hfull, if_true]
        have h1 := length_upsert_le key v' (now + ttl) (evict c)
        have h2 := evict_length hne
        omega
      · simp only [hfull, if_false]
        have h1 := length_upsert_le key v' (now + ttl) c
        omega

/-- C5: through any sequence of wrapper calls the cache never exceeds
`max_size` entries, and an insert performed at or above `max_size`
evicts exactly one entry — one with the least expiry timestamp. -/
theorem claim_C5_cache_bounded_eviction (V : Type) (maxItems : Nat) (ttl : Rat)
    (hmax : 1 ≤ maxItems) :
    (∀ ops : List (CacheOp V), (runCache maxItems ttl ops).length ≤ maxItems) ∧
    (∀ (c : Cache V) (key : String) (now : Rat) (v : V),
      maxItems ≤ c.length → missOrExpired key now c →
      ∃ l1 g l2, c = l1 ++ g :: l2 ∧ (∀ f ∈ c, g.2.2 ≤ f.2.2) ∧
        (wrapperStep maxItems ttl key now (.ok v) c).1 =
          upsert key v (now + ttl) (l1 ++ l2)) := by
  constructor
  · intro ops
    suffices h : ∀ (c : Cache V), c.length ≤ maxItems →
        (ops.foldl (fun c op => (wrapperStep maxItems ttl op.key op.now op.outcome c).1)
          c).length ≤ maxItems by
      exact h [] (by simp)
    induction ops with
    | nil => intro c hc; simpa using hc
    | cons op rest ih =>
      intro c hc
      exact ih _ (wrapperStep_length_le maxItems ttl op.key op.now op.outcome c hmax hc)
  · intro c key now v hfull hmiss
    have hne : c ≠ [] := by
      cases c with
      | nil => simp at hfull; omega
      | cons _ _ => simp
    obtain ⟨l1, g, l2, hsplit, hle, heq⟩ := evict_decomp hne
    refine ⟨l1, g, l2, hsplit, hle, ?_⟩
    unfold wrapperStep missOrExpired at *
    cases hfind : findEntry key c with
    | some ve =>
      obtain ⟨v', exp⟩ := ve
      rw [hfind] at hmiss
      have hnlt : ¬ now < exp := not_lt.mpr hmiss
      simp only [hfind, hnlt, if_false, hfull, if_true, heq]
    | none =>
      simp only [hfind, hfull, if_true, heq]

/-- C5 (witness): with `max_size = 1`, inserting a second key evicts the
first entry, and the bound holds along the run. -/
theorem claim_C5_witness :
    1 ≤ 1 ∧
    (runCache (V := Nat) 1 10 [⟨"a", 0, .ok 5⟩, ⟨"b", 1, .ok 6⟩]).length ≤ 1 :=
  ⟨le_refl 1,
    (claim_C5_cache_bounded_eviction Nat 1 10 (le_refl 1)).1 [⟨"a", 0, .ok 5⟩, ⟨"b", 1, .ok 6⟩]⟩

lemma findEntry_upsert (key : String) (v : V) (exp : Rat) :
    ∀ c : Cache V, findEntry key (upsert key v exp c) = some (v, exp) := by
  intro c
  induction c with
  | nil => simp [upsert, findEntry]
  | cons e rest ih =>
    obtain ⟨k, v', e'⟩ := e
    by_cases h : k = key
    · simp [upsert, h, findEntry]
    · simp [upsert, h, findEntry, ih]

end Cache

/-! ### C6: the cached repository lookups swallow failures

`MFAPIRepository.get_all_funds` is `@async_cache()` applied to a
coroutine that catches every exception of the external request and
returns `[]`; the wrapped coroutine therefore never raises: a failing
external call reaches the cache as the ordinary value `[]`. -/

/-- The body of `get_all_funds` under the decorator: the outcome of the
external call, with every exception converted to `[]`. -/
def getAllFundsInner (ext : Except Unit (List FundRecord)) : List FundRecord :=
  match ext with
  | .ok fs => fs
  | .error _ => []

/-- C6 (counterexample): after an external failure, `get_all_funds`
returns `[]` and that empty failure result is cached: a second call one
second later — within the TTL — is served from the cache (`func` is not
awaited) and returns the stored `[]`, even though the external call
would now succeed with a fund list. -/
theorem claim_C6_counterexample :
    (wrapperStep 100 3600 "get_all_funds:" 0 (.ok (getAllFundsInner (.error ())))
        ([] : Cache (List FundRecord))).2.1 = .ok [] ∧
    (wrapperStep 100 3600 "get_all_funds:" 1
        (.ok (getAllFundsInner (.ok [⟨119010, "HDFC Top 100 Fund-Growth Option"⟩])))
        (wrapperStep 100 3600 "get_all_funds:" 0 (.ok (getAllFundsInner (.error ())))
          ([] : Cache (List FundRecord))).1).2.2 = false ∧
    (wrapperStep 100 3600 "get_all_funds:" 1
        (.ok (getAllFundsInner (.ok [⟨119010, "HDFC Top 100 Fund-Growth Option"⟩])))
        (wrapperStep 100 3600 "get_all_funds:" 0 (.ok (getAllFundsInner (.error ())))
          ([] : Cache (List FundRecord))).1).2.1 = .ok [] := by
  refine ⟨rfl, ?_, ?_⟩ <;>
    norm_num [wrapperStep, findEntry, upsert, evict, getAllFundsInner]

/-- C6 (amended): if the decorated coroutine itself raises, the wrapper
stores nothing, propagates the failure, and a retry happens; but
`get_all_funds` catches external failures internally and returns `[]`,
which the wrapper caches like any success — a subsequent call with the
same key within the TTL window is served the stored empty failure result
without the wrapped function being awaited. -/
theorem claim_C6_amended_swallowed_failures (maxItems : Nat) (ttl now now2 : Rat)
    (key : String) (c : Cache (List FundRecord)) (ext2 : Except Unit (List FundRecord))
    (hmiss : findEntry key c = none) (hlt : now2 < now + ttl) :
    ((wrapperStep maxItems ttl key now (Except.error ()) c).1 = c ∧
     (wrapperStep maxItems ttl key now (Except.error ()) c).2.2 = true ∧
     (wrapperStep maxItems ttl key now (Except.error ()) c).2.1 = Except.error ()) ∧
    ((wrapperStep maxItems ttl key now2 (Except.ok (getAllFundsInner ext2))
        (wrapperStep maxItems ttl key now
          (Except.ok (getAllFundsInner (Except.error ()))) c).1).2.2 = false ∧
     (wrapperStep maxItems ttl key now2 (Except.ok (getAllFundsInner ext2))
        (wrapperStep maxItems ttl key now
          (Except.ok (getAllFundsInner (Except.error ()))) c).1).2.1 = Except.ok ([] : List FundRecord) ∧
     (wrapperStep maxItems ttl key now2 (Except.ok (getAllFundsInner ext2))
        (wrapperStep maxItems ttl key now
          (Except.ok (getAllFundsInner (Except.error ()))) c).1).1 =
       (wrapperStep maxItems ttl key now
          (Except.ok (getAllFundsInner (Except.error ()))) c).1) := by
  have hfe : findEntry key
      (wrapperStep maxItems ttl key now
        (Except.ok (getAllFundsInner (Except.error ()))) c).1 = some ([], now + ttl) := by
    have hr1 : (wrapperStep maxItems ttl key now
        (Except.ok (getAllFundsInner (Except.error ()))) c).1 =
        upsert key [] (now + ttl) (if maxItems ≤ c.length then evict c else c) := by
      simp [wrapperStep, hmiss, getAllFundsInner]
    rw [hr1]
    exact findEntry_upsert key [] (now + ttl) _
  refine ⟨by simp [wrapperStep, hmiss], ?_⟩
  set c1 := (wrapperStep maxItems ttl key now
      (Except.ok (getAllFundsInner (Except.error ()))) c).1 with hc1
  refine ⟨?_, ?_, ?_⟩ <;> simp [wrapperStep, hfe, hlt]

/-- C6 (witness): the amended theorem at concrete times and cache. -/
theorem claim_C6_amended_witness :
    findEntry "get_all_funds:" ([] : Cache (List FundRecord)) = none ∧
    (1 : Rat) < 0 + 3600 ∧
    (((wrapperStep 100 3600 "get_all_funds:" 0 (Except.error ())
          ([] : Cache (List FundRecord))).1 = [] ∧
      (wrapperStep 100 3600 "get_all_funds:" 0 (Except.error ())
          ([] : Cache (List FundRecord))).2.2 = true ∧
      (wrapperStep 100 3600 "get_all_funds:" 0 (Except.error ())
          ([] : Cache (List FundRecord))).2.1 = Except.error ()) ∧
     ((wrapperStep 100 3600 "get_all_funds:" 1
          (Except.ok (getAllFundsInner (Except.ok [⟨119010, "HDFC Top 100 Fund-Growth Option"⟩])))
          (wrapperStep 100 3600 "get_all_funds:" 0
            (Except.ok (getAllFundsInner (Except.error ())))
            ([] : Cache (List FundRecord))).1).2.2 = false ∧
      (wrapperStep 100 3600 "get_all_funds:" 1
          (Except.ok (getAllFundsInner (Except.ok [⟨119010, "HDFC Top 100 Fund-Growth Option"⟩])))
          (wrapperStep 100 3600 "get_all_funds:" 0
            (Except.ok (getAllFundsInner (Except.error ())))
            ([] : Cache (List FundRecord))).1).2.1 = Except.ok ([] : List FundRecord) ∧
      (wrapperStep 100 3600 "get_all_funds:" 1
          (Except.ok (getAllFundsInner (Except.ok [⟨119010, "HDFC Top 100 Fund-Growth Option"⟩])))
          (wrapperStep 100 3600 "get_all_funds:" 0
            (Except.ok (getAllFundsInner (Except.error ())))
            ([] : Cache (List FundRecord))).1).1 =
        (wrapperStep 100 3600 "get_all_funds:" 0
            (Except.ok (getAllFundsInner (Except.error ())))
            ([] : Cache (List FundRecord))).1)) :=
  ⟨rfl, by norm_num,
    claim_C6_amended_swallowed_failures 100 3600 0 1 "get_all_funds:" []
      (Except.ok [⟨119010, "HDFC Top 100 Fund-Growth Option"⟩]) rfl (by norm_num)⟩

/-! ### Query analyzer helpers (`QueryAnalyzer`) -/

/-- Python `str.strip()` on a character list. -/
def stripChars (l : List Char) : List Char :=
  ((l.dropWhile Char.isWhitespace).reverse.dropWhile Char.isWhitespace).reverse

/-- `QueryAnalyzer.extract_fund_names`: lines containing (case-insensitively)
`"fund"` and a colon yield the trimmed text after the first colon, unless
that text is empty or a placeholder. -/
def extractFundNames (analysis : String) : List String :=
  (analysis.splitOn "\n").filterMap fun line =>
    if containsSub "fund".toList (lowerChars line) && containsSub [':'] line.toList then
      let namePart := stripChars ((line.toList.dropWhile (· ≠ ':')).drop 1)
      let lowered := namePart.map Char.toLower
      if namePart ≠ [] && lowered ≠ "none".toList && lowered ≠ "not mentioned".toList &&
          lowered ≠ "not specified".toList then
        some (String.mk namePart)
      else none
    else none

/-- The `comparison_keywords` of `QueryAnalyzer.is_comparison_query`. -/
def comparisonKeywords : List String :=
  ["compare", "comparison", "versus", "vs", "vs.", "better", "difference", "differences",
   "which is better", "contrast", "against"]

/-- `QueryAnalyzer.is_comparison_query`. -/
def isComparisonQuery (query : String) : Bool :=
  comparisonKeywords.any fun k => containsSub k.toList (lowerChars query)

/-! ### Pipeline state and stages (`agents`)

Each stage is embedded as a pure function of the state together with
oracle arguments standing for the external calls it makes: an
`Except String String` is the result of one `generate_response` call
(`.error` = the call raised, carrying `str(e)`), and the fund-service
results are passed in likewise.  `analyze_funds` additionally reports
which of the two prompts it sent (if any), and `generate_final_response`
reports whether the final generation call was made. -/

/-- A conversation turn (`HumanMessage` / `AIMessage`). -/
inductive Msg where
  | human (content : String)
  | ai (content : String)
deriving DecidableEq, Repr

/-- The `FundDetail` schema (fields as in `schemas.fund`). -/
structure FundDetail where
  scheme_code : String
  scheme_name : String
  fund_house : String
  scheme_type : String
  scheme_category : String
  scheme_nav : Option Rat
  scheme_nav_date : Option String
  nav_data : List NavEntry
deriving DecidableEq, Repr

/-- The pipeline state dict.  `fundAnalysis` is read with
`state.get("fund_analysis", "")`, so the absent key and the empty string
coincide; `response` and `error` distinguish the absent key as `none`. -/
structure AgentState where
  query : String
  chatHistory : List Msg
  queryAnalysis : Option String
  fundNames : List String
  searchResults : List FundSummary
  fundDetails : List FundDetail
  fundAnalysis : String
  response : Option String
  error : Option String
deriving DecidableEq, Repr

/-- Python truthiness of `state.get("error")`. -/
def errTruthy : Option String → Bool
  | none => false
  | some s => !(s == "")

/-- Fixed strings of the pipeline. -/
def emptyDetailApology : String :=
  "I couldn\x27t find any mutual funds matching your query. Could you please provide more specific information?"

def analysisFailedApology : String :=
  "I\x27m sorry, I couldn\x27t complete the analysis of mutual funds based on your query. Please try again with more specific details or check if the fund names are correct."

def generateFailedApology : String :=
  "I\x27m sorry, I couldn\x27t generate a response based on your query."

/-- `analyze_query`: on success appends the human turn and the analyzing
acknowledgment and extracts fund names; on failure records the error and
still appends the human turn. -/
def analyzeQueryStage (s : AgentState) (llm : Except String String) : AgentState :=
  match llm with
  | .ok analysis =>
    { s with queryAnalysis := some analysis,
             fundNames := extractFundNames analysis,
             chatHistory := s.chatHistory ++
               [.human s.query, .ai "I\x27m analyzing your query about mutual funds."] }
  | .error e =>
    { s with error := some ("Query analysis failed: " ++ e),
             chatHistory := s.chatHistory ++ [.human s.query] }

/-- The dict comprehension `{r.scheme_code: r for r in search_results}`:
first-occurrence position, last-seen value per code. -/
def upsertByCode (acc : List FundSummary) (r : FundSummary) : List FundSummary :=
  if acc.any fun x => x.scheme_code == r.scheme_code then
    acc.map fun x => if x.scheme_code == r.scheme_code then r else x
  else acc ++ [r]

def dedupByCode (rs : List FundSummary) : List FundSummary := rs.foldl upsertByCode []

/-- `search_funds` (the agent stage): `gathered` is the concatenation of
the per-term service results; on failure the error is recorded, the
result set is empty and the history is left as it was. -/
def searchFundsStage (s : AgentState) (outcome : Except String (List FundSummary)) :
    AgentState :=
  match outcome with
  | .ok gathered =>
    let unique := dedupByCode gathered
    { s with searchResults := unique,
             chatHistory := s.chatHistory ++
               [.ai ("I found " ++ toString unique.length ++
                 " funds that match your query.")] }
  | .error e =>
    { s with error := some ("Fund search failed: " ++ e), searchResults := [] }

/-- `fetch_fund_details`: takes at most the first three search results;
`perFund` carries the per-fund service results (`none` = no detail). -/
def fetchFundDetailsStage (s : AgentState)
    (outcome : Except String (List (Option FundDetail))) : AgentState :=
  match outcome with
  | .error e =>
    { s with error := some ("Fund details fetch failed: " ++ e), fundDetails := [] }
  | .ok perFund =>
    let maxFunds := min s.searchResults.length 3
    if maxFunds = 0 then
      { s with fundDetails := [],
               chatHistory := s.chatHistory ++
                 [.ai "I couldn\x27t find any relevant funds to analyze."] }
    else
      let details := (perFund.take maxFunds).reduceOption
      { s with fundDetails := details,
               chatHistory := s.chatHistory ++
                 [.ai ("I\x27ve gathered detailed information on " ++
                   toString details.length ++ " funds.")] }

/-- Which generation prompt `analyze_funds` sent. -/
inductive PromptKind where
  | analysisPrompt
  | comparisonPrompt
deriving DecidableEq, Repr

/-- `analyze_funds`: with no details, sets the apology response directly
and sends no prompt; otherwise routes to the comparison prompt for ≥ 2
details and a comparison query, else the single-fund analysis prompt. -/
def analyzeFundsStage (s : AgentState) (llm : Except String String) :
    AgentState × Option PromptKind :=
  if s.fundDetails.isEmpty then
    ({ s with response := some emptyDetailApology,
              chatHistory := s.chatHistory ++
                [.ai "I couldn\x27t find any mutual funds matching your query."] }, none)
  else
    let kind := if 2 ≤ s.fundDetails.length ∧ isComparisonQuery s.query = true then
        PromptKind.comparisonPrompt
      else PromptKind.analysisPrompt
    match llm with
    | .ok analysis =>
      ({ s with fundAnalysis := analysis,
                chatHistory := s.chatHistory ++
                  [.ai "I\x27ve analyzed the fund data based on your query."] }, some kind)
    | .error e =>
      ({ s with error := some ("Fund analysis failed: " ++ e),
                fundAnalysis := "I couldn\x27t analyze the fund data due to a technical error." },
        some kind)

/-- `generate_final_response`: short-circuits to a fixed apology (without
calling the generator) when an upstream error was recorded and no fund
analysis exists; on generation failure falls back to the raw analysis
text, or a fixed apology when that is empty.  The `Bool` records whether
the generation call was made. -/
def generateFinalResponseStage (s : AgentState) (llm : Except String String) :
    AgentState × Bool :=
  if errTruthy s.error && s.fundAnalysis == "" then
    ({ s with response := some analysisFailedApology,
              chatHistory := s.chatHistory ++
                [.ai "I couldn\x27t complete the analysis of mutual funds."] }, false)
  else
    match llm with
    | .ok resp =>
      ({ s with response := some resp, chatHistory := s.chatHistory ++ [.ai resp] }, true)
    | .error _ =>
      ({ s with response := some (if s.fundAnalysis == "" then generateFailedApology
                                  else s.fundAnalysis),
                chatHistory := s.chatHistory ++
                  [.ai "Here\x27s what I found about the mutual funds you asked about."] },
        true)

/-- A fresh pipeline state, as built by `process_query`. -/
def s0 : AgentState :=
  { query := "best large cap funds", chatHistory := [], queryAnalysis := none, fundNames := [],
    searchResults := [], fundDetails := [], fundAnalysis := "", response := none, error := none }

/-- C7 (counterexample): starting from a state with zero search results,
`analyze_funds` sends no prompt, but the terminal response delivered
after `generate_final_response` is the final generation output — not the
empty-detail apology, which is overwritten. -/
theorem claim_C7_counterexample :
    (analyzeFundsStage (fetchFundDetailsStage s0 (.ok [])) (.ok "unused")).2 = none ∧
    (generateFinalResponseStage
        (analyzeFundsStage (fetchFundDetailsStage s0 (.ok [])) (.ok "unused")).1
        (.ok "FINAL ANSWER")).1.response = some "FINAL ANSWER" ∧
    (generateFinalResponseStage
        (analyzeFundsStage (fetchFundDetailsStage s0 (.ok [])) (.ok "unused")).1
        (.ok "FINAL ANSWER")).1.response ≠ some emptyDetailApology := by
  refine ⟨rfl, rfl, by decide⟩

/-- C7 (amended): with zero search results the detail list is empty,
`analyze_funds` sets the empty-detail apology and sends neither the
analysis nor the comparison prompt; but `generate_final_response` still
runs and replaces the response: the delivered response is the upstream
apology if an error was recorded, else the final generation output, else
its failure fallback. -/
theorem claim_C7_amended_zero_results (s : AgentState)
    (o3 : List (Option FundDetail)) (llm4 llm5 : Except String String)
    (hs : s.searchResults = []) (ha : s.fundAnalysis = "") :
    (fetchFundDetailsStage s (.ok o3)).fundDetails = [] ∧
    (analyzeFundsStage (fetchFundDetailsStage s (.ok o3)) llm4).1.response =
      some emptyDetailApology ∧
    (analyzeFundsStage (fetchFundDetailsStage s (.ok o3)) llm4).2 = none ∧
    (generateFinalResponseStage
        (analyzeFundsStage (fetchFundDetailsStage s (.ok o3)) llm4).1 llm5).1.response =
      some (if errTruthy s.error then analysisFailedApology
            else match llm5 with
                 | .ok t => t
                 | .error _ => generateFailedApology) := by
  have h3 : fetchFundDetailsStage s (.ok o3) =
      { s with fundDetails := [],
               chatHistory := s.chatHistory ++
                 [.ai "I couldn\x27t find any relevant funds to analyze."] } := by
    simp [fetchFundDetailsStage, hs]
  have h4 : analyzeFundsStage (fetchFundDetailsStage s (.ok o3)) llm4 =
      ({ s with fundDetails := [],
                response := some emptyDetailApology,
                chatHistory := s.chatHistory ++
                  [.ai "I couldn\x27t find any relevant funds to analyze.",
                   .ai "I couldn\x27t find any mutual funds matching your query."] }, none) := by
    rw [h3]; simp [analyzeFundsStage]
  refine ⟨by rw [h3], by rw [h4], by rw [h4], ?_⟩
  rw [h4]
  cases hET : errTruthy s.error with
  | true => simp [generateFinalResponseStage, hET, ha]
  | false =>
    cases llm5 with
    | ok t => simp [generateFinalResponseStage, hET, ha]
    | error e => simp [generateFinalResponseStage, hET, ha]

/-- C7 (witness): the amended theorem at a concrete fresh state, with a
failing final generation call. -/
theorem claim_C7_amended_witness :
    s0.searchResults = [] ∧ s0.fundAnalysis = "" ∧
    ((fetchFundDetailsStage s0 (.ok [])).fundDetails = [] ∧
     (analyzeFundsStage (fetchFundDetailsStage s0 (.ok [])) (.ok "analysis")).1.response =
       some emptyDetailApology ∧
     (analyzeFundsStage (fetchFundDetailsStage s0 (.ok [])) (.ok "analysis")).2 = none ∧
     (generateFinalResponseStage
         (analyzeFundsStage (fetchFundDetailsStage s0 (.ok [])) (.ok "analysis")).1
         (.error "provider down")).1.response =
       some (if errTruthy s0.error then analysisFailedApology
             else match (Except.error "provider down" : Except String String) with
                  | .ok t => t
                  | .error _ => generateFailedApology)) :=
  ⟨rfl, rfl,
    claim_C7_amended_zero_results s0 [] (.ok "analysis") (.error "provider down") rfl rfl⟩

/-- C8: `generate_final_response` short-circuits to the fixed apology,
without calling the generator, exactly when an error was recorded and no
fund-analysis text exists; and when the final generation call fails it
returns the raw fund-analysis text verbatim, or the fixed apology when
that text is empty, instead of propagating the failure. -/
theorem claim_C8_final_response_fallbacks (s : AgentState) (llm : Except String String) :
    ((generateFinalResponseStage s llm).2 = false ↔
      (errTruthy s.error && s.fundAnalysis == "") = true) ∧
    ((errTruthy s.error && s.fundAnalysis == "") = true →
      (generateFinalResponseStage s llm).1.response = some analysisFailedApology) ∧
    (∀ e, llm = Except.error e → (errTruthy s.error && s.fundAnalysis == "") = false →
      (generateFinalResponseStage s llm).1.response =
        some (if s.fundAnalysis == "" then generateFailedApology else s.fundAnalysis)) := by
  by_cases hc : (errTruthy s.error && s.fundAnalysis == "") = true
  · simp [generateFinalResponseStage, hc]
  · cases llm with
    | ok t => simp [generateFinalResponseStage, hc]
    | error e => simp [generateFinalResponseStage, hc]

/-- C8 (witness): the theorem at a concrete errored state with empty
analysis, and a successful generation call. -/
theorem claim_C8_witness :
    ((generateFinalResponseStage { s0 with error := some "boom" } (.ok "hello")).2 = false ↔
      (errTruthy ({ s0 with error := some "boom" } : AgentState).error &&
        ({ s0 with error := some "boom" } : AgentState).fundAnalysis == "") = true) ∧
    ((errTruthy ({ s0 with error := some "boom" } : AgentState).error &&
        ({ s0 with error := some "boom" } : AgentState).fundAnalysis == "") = true →
      (generateFinalResponseStage { s0 with error := some "boom" } (.ok "hello")).1.response =
        some analysisFailedApology) ∧
    (∀ e, (Except.ok "hello" : Except String String) = Except.error e →
      (errTruthy ({ s0 with error := some "boom" } : AgentState).error &&
        ({ s0 with error := some "boom" } : AgentState).fundAnalysis == "") = false →
      (generateFinalResponseStage { s0 with error := some "boom" } (.ok "hello")).1.response =
        some (if ({ s0 with error := some "boom" } : AgentState).fundAnalysis == ""
              then generateFailedApology
              else ({ s0 with error := some "boom" } : AgentState).fundAnalysis)) :=
  claim_C8_final_response_fallbacks { s0 with error := some "boom" } (.ok "hello")

/-- C9: every stage function, in every branch including the failure
branches, returns a state whose conversation history extends the
incoming history by appended entries only. -/
theorem claim_C9_history_append_only (s : AgentState) (llm1 : Except String String)
    (o2 : Except String (List FundSummary)) (o3 : Except String (List (Option FundDetail)))
    (llm4 llm5 : Except String String) :
    (∃ t, (analyzeQueryStage s llm1).chatHistory = s.chatHistory ++ t) ∧
    (∃ t, (searchFundsStage s o2).chatHistory = s.chatHistory ++ t) ∧
    (∃ t, (fetchFundDetailsStage s o3).chatHistory = s.chatHistory ++ t) ∧
    (∃ t, (analyzeFundsStage s llm4).1.chatHistory = s.chatHistory ++ t) ∧
    (∃ t, (generateFinalResponseStage s llm5).1.chatHistory = s.chatHistory ++ t) := by
  refine ⟨?_, ?_, ?_, ?_, ?_⟩
  · cases llm1 <;> exact ⟨_, rfl⟩
  · cases o2 with
    | ok g => exact ⟨_, rfl⟩
    | error e => exact ⟨[], by simp [searchFundsStage]⟩
  · cases o3 with
    | error e => exact ⟨[], by simp [fetchFundDetailsStage]⟩
    | ok perFund =>
      by_cases h : min s.searchResults.length 3 = 0
      · refine ⟨[Msg.ai "I couldn\x27t find any relevant funds to analyze."], ?_⟩
        simp [fetchFundDetailsStage, h]
      · refine ⟨[Msg.ai ("I\x27ve gathered detailed information on " ++
          toString ((perFund.take (min s.searchResults.length 3)).reduceOption.length) ++
          " funds.")], ?_⟩
        simp [fetchFundDetailsStage, h]
  · by_cases h : s.fundDetails.isEmpty
    · refine ⟨[Msg.ai "I couldn\x27t find any mutual funds matching your query."], ?_⟩
      simp [analyzeFundsStage, h]
    · cases llm4 with
      | ok t =>
        refine ⟨[Msg.ai "I\x27ve analyzed the fund data based on your query."], ?_⟩
        simp [analyzeFundsStage, h]
      | error e => exact ⟨[], by simp [analyzeFundsStage, h]⟩
  · by_cases h : (errTruthy s.error && s.fundAnalysis == "") = true
    · refine ⟨[Msg.ai "I couldn\x27t complete the analysis of mutual funds."], ?_⟩
      simp [generateFinalResponseStage, h]
    · cases llm5 with
      | ok t =>
        refine ⟨[Msg.ai t], ?_⟩
        simp [generateFinalResponseStage, h]
      | error e =>
        refine ⟨[Msg.ai "Here\x27s what I found about the mutual funds you asked about."], ?_⟩
        simp [generateFinalResponseStage, h]

end FundAdvisor
